import Mathlib

/-!
Shallow embedding of `src/sacred_scripts/run_schnetpack.py`: the property-map
pipeline (loss composition, statistics resolution, atomref selection), the
model-directory management and the train command's effect order.

Python floats are modelled as exact rationals, tensors as flat lists of
rationals, Python dicts as insertion-ordered association lists, and the
filesystem as an association list from directory path to its list of files.
External library calls (`get_dataset`, `get_atomref`, `get_statistics`,
`get_property_map`) are parameters of the embedding.
-/

namespace RunSchnetpack

/-- Property-name constants of the external `schnetpack.property_model.Properties`
class, referenced by the script. Only their identity as distinct names matters. -/
def Properties.energy : String := "energy"

/-- See `Properties.energy`. -/
def Properties.polarizability : String := "polarizability"

/-- See `Properties.energy`. -/
def Properties.dipole_moment : String := "dipole_moment"

/-- `def is_extensive(prop): return prop == Properties.energy` -/
def is_extensive (prop : String) : Bool :=
  prop == Properties.energy

/-- A property map: Python dict from property name to target column or `None`,
as an insertion-ordered association list (keys are distinct in a Python dict). -/
abbrev PropertyMap := List (String × Option String)

/-- Python `property_map[p]` for a key `p` of the dict (every use site looks up
an existing key, so the `KeyError` case never arises and defaults to `none`). -/
def dictGet (pm : PropertyMap) (p : String) : Option String :=
  ((pm.find? (fun e => e.1 == p)).map (fun e => e.2)).getD none

/-- A tensor, as its flat list of entries (exact rationals in place of floats). -/
abbrev Tensor := List ℚ

/-- `torch.mean`: the arithmetic mean over all entries. -/
def tmean (t : Tensor) : ℚ :=
  t.sum / t.length

/-- Elementwise tensor subtraction (operands have equal shape at the use site). -/
def tsub (a b : Tensor) : Tensor :=
  List.zipWith (fun x y => x - y) a b

/-- Elementwise `diff ** 2`. -/
def tsq (a : Tensor) : Tensor :=
  a.map (fun x => x ^ 2)

/-- The body of `build_loss`'s loop for one `(p, tgt)` item of `property_map`:
skip a `None` target, otherwise add `torch.mean((batch[tgt] - result[p]) ** 2)`,
scaled by `loss_tradeoff[p]` when `p in loss_tradeoff.keys()`. -/
def lossStep (loss_tradeoff : List (String × ℚ)) (batch result : String → Tensor)
    (loss : ℚ) (e : String × Option String) : ℚ :=
  match e.2 with
  | none => loss
  | some tgt =>
    let diff := tsub (batch tgt) (result e.1)
    let diff := tsq diff
    let err_sq := tmean diff
    let err_sq :=
      match loss_tradeoff.find? (fun w => w.1 == e.1) with
      | some w => err_sq * w.2
      | none => err_sq
    loss + err_sq

/-- `build_loss(property_map, loss_tradeoff)`: the returned `loss_fn(batch, result)`
starts from `loss = 0.` and folds `lossStep` over the items of `property_map`. -/
def build_loss (property_map : PropertyMap) (loss_tradeoff : List (String × ℚ))
    (batch result : String → Tensor) : ℚ :=
  property_map.foldl (lossStep loss_tradeoff batch result) 0

/-- The tradeoff weight the spec ascribes to a property: the entry of
`loss_tradeoff` when present, 1 otherwise. -/
def lossWeight (loss_tradeoff : List (String × ℚ)) (p : String) : ℚ :=
  match loss_tradeoff.find? (fun w => w.1 == p) with
  | some w => w.2
  | none => 1

/-- Per-property loss contributions, keyed by property name: one entry,
`weight × mean squared error`, for each item of the map with a non-null target. -/
def lossContributions (pm : PropertyMap) (loss_tradeoff : List (String × ℚ))
    (batch result : String → Tensor) : List (String × ℚ) :=
  pm.filterMap (fun e =>
    e.2.map (fun tgt =>
      (e.1, lossWeight loss_tradeoff e.1 * tmean (tsq (tsub (batch tgt) (result e.1))))))

/-- The spec's loss formula: the sum, over exactly the properties with a
non-null target, of tradeoff weight (default 1) times mean squared error. -/
def specLossSum (pm : PropertyMap) (loss_tradeoff : List (String × ℚ))
    (batch result : String → Tensor) : ℚ :=
  ((lossContributions pm loss_tradeoff batch result).map (fun e => e.2)).sum

/-- `props = [p for p, tgt in property_map.items() if tgt is not None]` in `stats`;
also the model-property list in `train` and the key set of `prepare_data`'s
atomref dict. -/
def statsPropsAll (pm : PropertyMap) : List String :=
  (pm.filter (fun e => e.2.isSome)).map (fun e => e.1)

/-- The filter `p not in [Properties.polarizability, Properties.dipole_moment]`
shared by the three comprehensions of `stats`. -/
def notExcluded (p : String) : Bool :=
  !(p == Properties.polarizability || p == Properties.dipole_moment)

/-- The filtered property list the three `stats` comprehensions range over. -/
def statsFilteredProps (pm : PropertyMap) : List String :=
  (statsPropsAll pm).filter notExcluded

/-- `targets = [property_map[p] for p in props if p not in [...]]` in `stats`. -/
def statsTargets (pm : PropertyMap) : List (Option String) :=
  (statsFilteredProps pm).map (dictGet pm)

/-- `atomrefs = [atomrefs[p] for p in props if p not in [...]]` in `stats`
(dict lookup into the atomref dict built by `prepare_data`). -/
def statsAtomrefs {α : Type} (atomrefs : List (String × α)) (pm : PropertyMap) :
    List (Option α) :=
  (statsFilteredProps pm).map (fun p =>
    (atomrefs.find? (fun e => e.1 == p)).map (fun e => e.2))

/-- `extensive = [is_extensive(p) for p in props if p not in [...]]` in `stats`. -/
def statsExtensive (pm : PropertyMap) : List Bool :=
  (statsFilteredProps pm).map is_extensive

/-- A resolved statistics dict, property name to value (a tensor's
`.detach().cpu().numpy().tolist()` is modelled as the value itself). -/
abbrev StatDict := List (String × ℚ)

/-- The configuration fields of `cfg()` the embedded fragment reads or writes
(`mean`/`stddev` default to `None`, `overwrite` to `True`, `num_train` to 0.8,
`num_val` to 0.1, `modeldir` to `None`). -/
structure Config where
  modeldir : Option String
  overwrite : Bool
  mean : Option StatDict
  stddev : Option StatDict
  num_train : ℚ
  num_val : ℚ
  deriving DecidableEq

/-- `stats(train_loader, atomrefs, property_map, mean, stddev, _config)`: `mean`
and `stddev` are captured from the configuration; `train_loader.get_statistics`
is the external library call, a parameter here. Returns the updated `_config`
(the function's Python return value is the pair `_config['mean'], _config['stddev']`,
read off the result). -/
def stats {α : Type}
    (get_statistics : List (Option String) → List Bool → List (Option α) → List ℚ × List ℚ)
    (atomrefs : List (String × α)) (property_map : PropertyMap)
    (config : Config) : Config :=
  let mean := config.mean
  let stddev := config.stddev
  let props := statsPropsAll property_map
  let targets := statsTargets property_map
  let atomrefsL := statsAtomrefs atomrefs property_map
  let extensive := statsExtensive property_map
  if targets.length > 0 then
    if mean.isNone || stddev.isNone then
      let ms := get_statistics targets extensive atomrefsL
      { config with
        mean := some (props.zip ms.1)
        stddev := some (props.zip ms.2) }
    else
      config
  else
    { config with mean := some [], stddev := some [] }

/-- Python `int()` on a float: truncation toward zero. -/
def pyInt (q : ℚ) : ℤ :=
  if 0 ≤ q then ⌊q⌋ else ⌈q⌉

/-- The split-size resolution of `prepare_data`:
`if num < 1: num = int(num * len(data))`. -/
def resolveSplit (num : ℚ) (dataLen : ℕ) : ℚ :=
  if num < 1 then ((pyInt (num * dataLen) : ℤ) : ℚ) else num

/-- `atomrefs = {p: data.get_atomref(tgt) for p, tgt in property_map.items()
if tgt is not None}` in `prepare_data`; `data.get_atomref` is external. -/
def atomrefsDict {α : Type} (get_atomref : String → α) (pm : PropertyMap) :
    List (String × α) :=
  pm.filterMap (fun e => e.2.map (fun tgt => (e.1, get_atomref tgt)))

/-- `prepare_data`: the parts with repository-owned logic — the resolved
`num_train`/`num_val` passed to `data.create_splits` and the atomref dict.
Dataset loading and the three loaders are external library calls. -/
def prepare_data {α : Type} (get_atomref : String → α) (property_map : PropertyMap)
    (num_train num_val : ℚ) (dataLen : ℕ) : ℚ × ℚ × List (String × α) :=
  (resolveSplit num_train dataLen, resolveSplit num_val dataLen,
    atomrefsDict get_atomref property_map)

/-- The filesystem: an association list from existing directory path to that
directory's files, a file being a name paired with its (`yaml`-serialized
configuration) content. -/
abbrev FS := List (String × List (String × Config))

/-- `os.path.exists(d)`. -/
def FS.pathExists (fs : FS) (d : String) : Bool :=
  fs.any (fun e => e.1 == d)

/-- `rmtree(d)`: the directory and its contents are removed. -/
def FS.rmtree (fs : FS) (d : String) : FS :=
  fs.filter (fun e => e.1 != d)

/-- `os.makedirs(d)`: a fresh empty directory appears at `d`. -/
def FS.makedirs (fs : FS) (d : String) : FS :=
  fs ++ [(d, [])]

/-- The contents of directory `d`, when it exists. -/
def FS.lookupDir (fs : FS) (d : String) : Option (List (String × Config)) :=
  (fs.find? (fun e => e.1 == d)).map (fun e => e.2)

/-- Writing file `name` with content `c` into directory `d`
(`open(..., 'w')` replaces an existing file of that name). -/
def FS.writeFile (fs : FS) (d name : String) (c : Config) : FS :=
  fs.map (fun e =>
    if e.1 == d then (e.1, e.2.filter (fun f => f.1 != name) ++ [(name, c)]) else e)

/-- A raised `ValueError`. -/
inductive CmdError where
  | valueError (msg : String)
  deriving DecidableEq

/-- `create_modeldir(_log, modeldir, overwrite)`, as an exception-or-unit paired
with the filesystem after the call (on an exception, the filesystem reached so
far — both raises happen before any mutation). -/
def create_modeldir (modeldir : Option String) (overwrite : Bool) (fs : FS) :
    Except CmdError Unit × FS :=
  match modeldir with
  | none => (Except.error (.valueError "Config modeldir has to be set!"), fs)
  | some d =>
    if fs.pathExists d && !overwrite then
      (Except.error
        (.valueError "Model directory already exists (set overwrite flag?)"), fs)
    else
      let fs := if fs.pathExists d && overwrite then fs.rmtree d else fs
      let fs := if !(fs.pathExists d) then fs.makedirs d else fs
      (Except.ok (), fs)

/-- `save_config(_config, modeldir)`: dump the configuration to
`config.yaml` inside the model directory. -/
def save_config (config : Config) (modeldir : String) (fs : FS) : FS :=
  fs.writeFile modeldir "config.yaml" config

/-- What the `train` command leaves behind: the filesystem, the trace of
`config.yaml` writes (directory paired with the content written, in order),
the final `_config`, the `mean, stddev` pair returned by `stats` and the
atomref dict from `prepare_data`. -/
structure TrainState (α : Type) where
  fs : FS
  writes : List (String × Config)
  config : Config
  mean : Option StatDict
  stddev : Option StatDict
  atomrefs : List (String × α)

/-- The `train` command, effects in source order: `get_property_map`, then
`create_modeldir()`, then `save_config()`, then `prepare_data(...)`, then
`stats(...)`. Model construction and the training loop are external calls
after all these effects and touch none of the modelled state. -/
def train {α : Type} (get_property_map : List String → PropertyMap)
    (get_atomref : String → α)
    (get_statistics : List (Option String) → List Bool → List (Option α) → List ℚ × List ℚ)
    (properties : List String) (config : Config) (dataLen : ℕ) (fs : FS) :
    Except CmdError (TrainState α) :=
  let property_map := get_property_map properties
  match create_modeldir config.modeldir config.overwrite fs with
  | (Except.error e, _) => Except.error e
  | (Except.ok _, fs1) =>
    match config.modeldir with
    | none =>
      -- unreachable: create_modeldir has already raised on a None modeldir
      Except.error (.valueError "Config modeldir has to be set!")
    | some d =>
      let fs2 := save_config config d fs1
      let pd := prepare_data get_atomref property_map config.num_train
        config.num_val dataLen
      let atomrefs := pd.2.2
      let config2 := stats get_statistics atomrefs property_map config
      Except.ok
        { fs := fs2
          writes := [(d, config)]
          config := config2
          mean := config2.mean
          stddev := config2.stddev
          atomrefs := atomrefs }

/-! ### Helper lemmas on the filesystem model -/

theorem pathExists_rmtree (fs : FS) (d : String) :
    (fs.rmtree d).pathExists d = false := by
  simp only [FS.pathExists, FS.rmtree, Bool.eq_false_iff, ne_eq, List.any_eq_true,
    List.mem_filter, bne_iff_ne, beq_iff_eq]
  rintro ⟨e, ⟨_, hne⟩, heq⟩
  exact hne heq

theorem pathExists_append_self (fs : FS) (d : String) (files : List (String × Config)) :
    (fs ++ [(d, files)] : FS).pathExists d = true := by
  simp [FS.pathExists, List.any_append]

theorem rmtree_rmtree (fs : FS) (d : String) :
    (fs.rmtree d).rmtree d = fs.rmtree d := by
  simp only [FS.rmtree, List.filter_filter, Bool.and_self]

theorem rmtree_append_self (fs : FS) (d : String) (files : List (String × Config)) :
    ((fs.rmtree d ++ [(d, files)] : FS)).rmtree d = fs.rmtree d := by
  simp only [FS.rmtree, List.filter_append, List.filter_filter, Bool.and_self]
  simp

theorem lookupDir_rmtree_append (fs : FS) (d : String) (files : List (String × Config)) :
    ((fs.rmtree d ++ [(d, files)] : FS)).lookupDir d = some files := by
  simp only [FS.lookupDir, List.find?_append]
  have h1 : (fs.rmtree d).find? (fun e => e.1 == d) = none := by
    rw [List.find?_eq_none]
    intro e he
    have := (List.mem_filter.mp he).2
    simpa using this
  simp [h1]

/-- C7: on an existing model directory with `overwrite=False`, `create_modeldir`
raises a `ValueError` and returns the filesystem unchanged (the directory and
its contents are unmodified). -/
theorem create_modeldir_existing_no_overwrite_raises (d : String) (fs : FS)
    (h : fs.pathExists d = true) :
    create_modeldir (some d) false fs =
      (Except.error
        (CmdError.valueError "Model directory already exists (set overwrite flag?)"),
       fs) := by
  simp [create_modeldir, h]

theorem create_modeldir_existing_no_overwrite_raises_witness :
    FS.pathExists [("m", [])] "m" = true ∧
    create_modeldir (some "m") false [("m", [])] =
      (Except.error
        (CmdError.valueError "Model directory already exists (set overwrite flag?)"),
       ([("m", [])] : FS)) :=
  ⟨by decide, create_modeldir_existing_no_overwrite_raises "m" [("m", [])] (by decide)⟩

/-- C8: on an existing model directory with `overwrite=True`, `create_modeldir`
succeeds, removes the directory tree and recreates it, leaving a fresh empty
directory at the same path; running it a second time yields the very same
outcome, so the operation is idempotent. -/
theorem create_modeldir_overwrite_fresh_idempotent (d : String) (fs : FS)
    (h : fs.pathExists d = true) :
    create_modeldir (some d) true fs = (Except.ok (), fs.rmtree d ++ [(d, [])]) ∧
    ((fs.rmtree d ++ [(d, [])] : FS)).lookupDir d = some [] ∧
    create_modeldir (some d) true (fs.rmtree d ++ [(d, [])]) =
      create_modeldir (some d) true fs := by
  have hrun : create_modeldir (some d) true fs =
      (Except.ok (), fs.rmtree d ++ [(d, [])]) := by
    simp [create_modeldir, h, pathExists_rmtree, FS.makedirs]
  refine ⟨hrun, lookupDir_rmtree_append fs d [], ?_⟩
  have h2 : (fs.rmtree d ++ [(d, [])] : FS).pathExists d = true :=
    pathExists_append_self _ d []
  have hrun2 : create_modeldir (some d) true (fs.rmtree d ++ [(d, [])]) =
      (Except.ok (), ((fs.rmtree d ++ [(d, [])] : FS)).rmtree d ++ [(d, [])]) := by
    simp [create_modeldir, h2, pathExists_rmtree, FS.makedirs]
  rw [hrun2, hrun, rmtree_append_self]

theorem create_modeldir_overwrite_fresh_idempotent_witness :
    FS.pathExists [("m", [("f", Config.mk none true none none 1 1)])] "m" = true ∧
    (create_modeldir (some "m") true [("m", [("f", Config.mk none true none none 1 1)])] =
        (Except.ok (), ([("m", [])] : FS)) ∧
      FS.lookupDir ([("m", [])] : FS) "m" = some [] ∧
      create_modeldir (some "m") true ([("m", [])] : FS) =
        create_modeldir (some "m") true
          [("m", [("f", Config.mk none true none none 1 1)])]) :=
  ⟨by decide,
   create_modeldir_overwrite_fresh_idempotent "m"
     [("m", [("f", Config.mk none true none none 1 1)])] (by decide)⟩

/-! ### Helper lemmas on loss composition and the selection sets -/

theorem foldl_lossStep (lt : List (String × ℚ)) (b r : String → Tensor)
    (pm : PropertyMap) : ∀ a : ℚ,
    pm.foldl (lossStep lt b r) a = a + specLossSum pm lt b r := by
  induction pm with
  | nil =>
    intro a
    simp [specLossSum, lossContributions]
  | cons e t ih =>
    intro a
    rcases e with ⟨p, tgt?⟩
    cases tgt? with
    | none =>
      rw [List.foldl_cons]
      have hstep : lossStep lt b r a (p, none) = a := rfl
      rw [hstep, ih]
      simp [specLossSum, lossContributions]
    | some tgt =>
      have hstep : lossStep lt b r a (p, some tgt) =
          a + lossWeight lt p * tmean (tsq (tsub (b tgt) (r p))) := by
        unfold lossStep lossWeight
        cases hf : lt.find? (fun w => w.1 == p)
        · simp [hf]
        · simp [hf]
          ring
      rw [List.foldl_cons, hstep, ih]
      simp only [specLossSum, lossContributions, List.filterMap_cons, Option.map_some',
        List.map_cons, List.sum_cons]
      ring

theorem build_loss_eq_specLossSum (pm : PropertyMap) (lt : List (String × ℚ))
    (b r : String → Tensor) : build_loss pm lt b r = specLossSum pm lt b r := by
  simpa using foldl_lossStep lt b r pm 0

theorem lossContributions_keys (pm : PropertyMap) (lt : List (String × ℚ))
    (b r : String → Tensor) :
    (lossContributions pm lt b r).map (fun e => e.1) = statsPropsAll pm := by
  induction pm with
  | nil => rfl
  | cons e t ih =>
    rcases e with ⟨p, tgt?⟩
    cases tgt? with
    | none =>
      simpa [lossContributions, statsPropsAll, List.filterMap_cons, List.filter_cons]
        using ih
    | some tgt =>
      simpa [lossContributions, statsPropsAll, List.filterMap_cons, List.filter_cons]
        using ih

theorem atomrefsDict_keys {α : Type} (ga : String → α) (pm : PropertyMap) :
    (atomrefsDict ga pm).map (fun e => e.1) = statsPropsAll pm := by
  induction pm with
  | nil => rfl
  | cons e t ih =>
    rcases e with ⟨p, tgt?⟩
    cases tgt? with
    | none =>
      simpa [atomrefsDict, statsPropsAll, List.filterMap_cons, List.filter_cons]
        using ih
    | some tgt =>
      simpa [atomrefsDict, statsPropsAll, List.filterMap_cons, List.filter_cons]
        using ih

theorem mem_statsPropsAll_of_target (pm : PropertyMap) (p : String) (tgt : String)
    (h : (p, some tgt) ∈ pm) : p ∈ statsPropsAll pm := by
  simp only [statsPropsAll, List.mem_map, List.mem_filter]
  exact ⟨(p, some tgt), ⟨h, rfl⟩, rfl⟩

theorem mem_statsFilteredProps_iff (pm : PropertyMap) (p : String) :
    p ∈ statsFilteredProps pm ↔
      p ∈ statsPropsAll pm ∧
        ¬(p = Properties.polarizability ∨ p = Properties.dipole_moment) := by
  simp [statsFilteredProps, List.mem_filter, notExcluded, not_or]

/-- C1: the loss function returned by `build_loss` evaluates to the sum, over
exactly the properties with a non-null target, of the mean squared error
between target and predicted tensor, weighted by the property's tradeoff
entry when present and by 1 otherwise. -/
theorem build_loss_eq_weighted_mse_sum (pm : PropertyMap) (lt : List (String × ℚ))
    (batch result : String → Tensor) :
    build_loss pm lt batch result =
      ((pm.filterMap (fun e => e.2.map (fun tgt =>
        lossWeight lt e.1 * tmean (tsq (tsub (batch tgt) (result e.1))))))).sum := by
  rw [build_loss_eq_specLossSum, specLossSum, lossContributions, List.map_filterMap]
  congr 1
  apply List.filterMap_congr
  intro e _
  cases e.2 <;> rfl

/-- C9: when no property of the map has a non-null target (the empty map
included), the loss function returned by `build_loss` evaluates to zero on
every batch/result pair. -/
theorem build_loss_zero_of_no_targets (pm : PropertyMap) (lt : List (String × ℚ))
    (batch result : String → Tensor) (h : ∀ e ∈ pm, e.2 = none) :
    build_loss pm lt batch result = 0 := by
  rw [build_loss_eq_specLossSum]
  have hnil : lossContributions pm lt batch result = [] := by
    rw [lossContributions, List.filterMap_eq_nil_iff]
    intro e he
    rw [h e he]
    rfl
  rw [specLossSum, hnil]
  rfl

theorem build_loss_zero_of_no_targets_witness :
    (∀ e ∈ ([("energy", none)] : PropertyMap), e.2 = none) ∧
    build_loss [("energy", none)] [] (fun _ => []) (fun _ => []) = 0 :=
  ⟨by decide,
   build_loss_zero_of_no_targets [("energy", none)] [] (fun _ => []) (fun _ => [])
     (by decide)⟩

/-- C3: the filtered property list driving the `targets`, `atomrefs` and
`extensive` comprehensions of `stats` never contains the polarizability or the
dipole-moment property, whatever the property map and the atomref dict. -/
theorem stats_filter_excludes_polarizability_dipole {α : Type} (pm : PropertyMap)
    (atomrefs : List (String × α)) :
    Properties.polarizability ∉ statsFilteredProps pm ∧
    Properties.dipole_moment ∉ statsFilteredProps pm ∧
    statsTargets pm = (statsFilteredProps pm).map (dictGet pm) ∧
    statsAtomrefs atomrefs pm =
      (statsFilteredProps pm).map (fun p =>
        (atomrefs.find? (fun e => e.1 == p)).map (fun e => e.2)) ∧
    statsExtensive pm = (statsFilteredProps pm).map is_extensive := by
  refine ⟨?_, ?_, rfl, rfl, rfl⟩
  · intro h
    have := (List.mem_filter.mp h).2
    simp [notExcluded] at this
  · intro h
    have := (List.mem_filter.mp h).2
    simp [notExcluded] at this

/-- C4: the extensivity flags assigned during statistics resolution mark a
property extensive exactly when it is the energy property: `is_extensive`
holds iff the name equals `Properties.energy`, and the `extensive` list of
`stats` is the pointwise image of that test. -/
theorem stats_extensive_iff_energy (pm : PropertyMap) :
    statsExtensive pm =
      (statsFilteredProps pm).map (fun p => decide (p = Properties.energy)) ∧
    ∀ p : String, is_extensive p = true ↔ p = Properties.energy := by
  constructor
  · have hfun : is_extensive = fun p => decide (p = Properties.energy) := by
      funext p
      by_cases h : p = Properties.energy <;> simp [is_extensive, h]
    rw [statsExtensive, hfun]
  · intro p
    simp [is_extensive]

/-- C5: the three selection sets. The loss contributions and the atomref dict
of `prepare_data` are keyed by exactly the non-null-target properties, the loss
is the sum of those contributions, and the statistics set is the same list with
the two hard-coded properties removed — so an excluded property with a target
still gets a loss term and an atomref entry. -/
theorem selection_sets_loss_atomrefs_stats {α : Type} (pm : PropertyMap)
    (lt : List (String × ℚ)) (batch result : String → Tensor)
    (ga : String → α) :
    (lossContributions pm lt batch result).map (fun e => e.1) = statsPropsAll pm ∧
    build_loss pm lt batch result =
      ((lossContributions pm lt batch result).map (fun e => e.2)).sum ∧
    (atomrefsDict ga pm).map (fun e => e.1) = statsPropsAll pm ∧
    (∀ p : String, p ∈ statsFilteredProps pm ↔
      p ∈ statsPropsAll pm ∧
        ¬(p = Properties.polarizability ∨ p = Properties.dipole_moment)) ∧
    (∀ (p tgt : String), (p, some tgt) ∈ pm → p ∈ statsPropsAll pm) :=
  ⟨lossContributions_keys pm lt batch result,
   build_loss_eq_specLossSum pm lt batch result,
   atomrefsDict_keys ga pm,
   fun p => mem_statsFilteredProps_iff pm p,
   fun p tgt h => mem_statsPropsAll_of_target pm p tgt h⟩

/-! ### Helper lemmas for statistics resolution -/

theorem map_fst_zip_eq_take {α β : Type} :
    ∀ (l1 : List α) (l2 : List β), (l1.zip l2).map Prod.fst = l1.take l2.length
  | [], _ => by simp
  | _ :: _, [] => by simp
  | a :: t1, b :: t2 => by
    simp [List.zip_cons_cons, map_fst_zip_eq_take t1 t2]

theorem length_filter_lt_of_mem_not {α : Type} (p : α → Bool) :
    ∀ (l : List α) (x : α), x ∈ l → p x = false → (l.filter p).length < l.length := by
  intro l
  induction l with
  | nil => intro x h; cases h
  | cons a t ih =>
    intro x hx hpx
    rcases List.mem_cons.mp hx with rfl | hxt
    · simp only [List.filter_cons, hpx, if_false, List.length_cons]
      exact Nat.lt_succ_of_le (List.length_filter_le p t)
    · have h := ih x hxt hpx
      cases hpa : p a <;> simp [List.filter_cons, hpa] <;> omega

theorem statsTargets_length (pm : PropertyMap) :
    (statsTargets pm).length = (statsFilteredProps pm).length := by
  simp [statsTargets]

/-- C6: when `stats` actually computes statistics (`mean` or `stddev` missing)
and the target list is non-empty, the resolved dictionaries zip the unfiltered
non-null-target property list `props` against statistics computed for the
filtered list only; the zip truncates to the shorter list, so the key list is
the prefix of `props` of the filtered list's length — a strictly shorter list
whenever `props` holds an excluded property. -/
theorem stats_zip_truncates {α : Type}
    (gs : List (Option String) → List Bool → List (Option α) → List ℚ × List ℚ)
    (atomrefs : List (String × α)) (pm : PropertyMap) (config : Config)
    (ms : List ℚ × List ℚ)
    (hms : gs (statsTargets pm) (statsExtensive pm) (statsAtomrefs atomrefs pm) = ms)
    (hnone : config.mean = none ∨ config.stddev = none)
    (h1 : ms.1.length = (statsTargets pm).length)
    (h2 : ms.2.length = (statsTargets pm).length)
    (hne : 0 < (statsTargets pm).length)
    (hexc : ∃ p ∈ statsPropsAll pm, notExcluded p = false) :
    (stats gs atomrefs pm config).mean = some ((statsPropsAll pm).zip ms.1) ∧
    (stats gs atomrefs pm config).stddev = some ((statsPropsAll pm).zip ms.2) ∧
    ((statsPropsAll pm).zip ms.1).map Prod.fst =
      (statsPropsAll pm).take (statsFilteredProps pm).length ∧
    ((statsPropsAll pm).zip ms.2).map Prod.fst =
      (statsPropsAll pm).take (statsFilteredProps pm).length ∧
    (statsFilteredProps pm).length < (statsPropsAll pm).length := by
  have hcond : (config.mean.isNone || config.stddev.isNone) = true := by
    rcases hnone with h | h <;> simp [h]
  have hmean : (stats gs atomrefs pm config).mean = some ((statsPropsAll pm).zip ms.1) ∧
      (stats gs atomrefs pm config).stddev = some ((statsPropsAll pm).zip ms.2) := by
    unfold stats
    rw [if_pos hne, if_pos hcond, hms]
    exact ⟨rfl, rfl⟩
  refine ⟨hmean.1, hmean.2, ?_, ?_, ?_⟩
  · rw [map_fst_zip_eq_take, h1, statsTargets_length]
  · rw [map_fst_zip_eq_take, h2, statsTargets_length]
  · rcases hexc with ⟨p, hp, hnp⟩
    exact length_filter_lt_of_mem_not notExcluded (statsPropsAll pm) p hp hnp

/-- Concrete instance for C6's witness: dipole moment (excluded) listed before
energy, statistics computed for energy's target alone. -/
def c6pm : PropertyMap := [("dipole_moment", some "mu"), ("energy", some "U0")]

/-- See `c6pm`. -/
def c6cfg : Config :=
  { modeldir := some "models", overwrite := true, mean := none, stddev := none,
    num_train := 4 / 5, num_val := 1 / 10 }

/-- See `c6pm`: the external statistics call, returning one mean and one
stddev — one per filtered target. -/
def c6gs : List (Option String) → List Bool → List (Option ℚ) → List ℚ × List ℚ :=
  fun _ _ _ => ([5], [2])

theorem stats_zip_truncates_witness :
    (stats c6gs [] c6pm c6cfg).mean = some [("dipole_moment", (5 : ℚ))] ∧
    (stats c6gs [] c6pm c6cfg).stddev = some [("dipole_moment", (2 : ℚ))] ∧
    ((statsPropsAll c6pm).zip ([5] : List ℚ)).map Prod.fst =
      (statsPropsAll c6pm).take (statsFilteredProps c6pm).length ∧
    ((statsPropsAll c6pm).zip ([2] : List ℚ)).map Prod.fst =
      (statsPropsAll c6pm).take (statsFilteredProps c6pm).length ∧
    (statsFilteredProps c6pm).length < (statsPropsAll c6pm).length :=
  stats_zip_truncates c6gs [] c6pm c6cfg ([5], [2]) rfl (Or.inl rfl) rfl rfl
    (by decide) ⟨"dipole_moment", by decide, rfl⟩

/-! ### The split-size resolution of prepare_data -/

/-- C10 counterexample: the product is not rounded down by `int()` on every
input treated as a fraction — at `num_train = -1/2` and one data point the
code yields 0 while rounding down would yield -1. -/
theorem resolveSplit_negative_not_floor :
    resolveSplit (-(1 : ℚ) / 2) 1 = 0 ∧
    ¬ resolveSplit (-(1 : ℚ) / 2) 1 = ((⌊(-(1 : ℚ) / 2) * ((1 : ℕ) : ℚ)⌋ : ℤ) : ℚ) := by
  have hmul : (-(1 : ℚ) / 2) * ((1 : ℕ) : ℚ) = -(1 : ℚ) / 2 := by norm_num
  have hce : (⌈-(1 : ℚ) / 2⌉ : ℤ) = 0 := by
    rw [Int.ceil_eq_iff]
    norm_num
  have hfl : (⌊-(1 : ℚ) / 2⌋ : ℤ) = -1 := by
    rw [Int.floor_eq_iff]
    norm_num
  have hval : resolveSplit (-(1 : ℚ) / 2) 1 = 0 := by
    rw [resolveSplit, if_pos (by norm_num : -(1 : ℚ) / 2 < 1), hmul, pyInt,
      if_neg (by norm_num : ¬(0 : ℚ) ≤ -(1 : ℚ) / 2), hce]
    norm_num
  refine ⟨hval, ?_⟩
  rw [hval, hmul, hfl]
  norm_num

/-- C10 amended: a split size is interpreted as a fraction of the dataset size
iff it is strictly below 1, the product truncated toward zero by `int()` —
which coincides with rounding down on the nonnegative values; exactly 1 is
kept unchanged as an absolute size of one sample, and every value at least 1
is used as an absolute count. -/
theorem resolveSplit_fraction_iff_lt_one (num : ℚ) (dataLen : ℕ) :
    (num < 1 → resolveSplit num dataLen = ((pyInt (num * dataLen) : ℤ) : ℚ)) ∧
    (1 ≤ num → resolveSplit num dataLen = num) ∧
    (0 ≤ num → num < 1 →
      resolveSplit num dataLen = ((⌊num * (dataLen : ℚ)⌋ : ℤ) : ℚ)) ∧
    resolveSplit 1 dataLen = 1 := by
  refine ⟨fun h => by rw [resolveSplit, if_pos h], fun h => ?_, fun h0 h1 => ?_, ?_⟩
  · rw [resolveSplit, if_neg (not_lt.mpr h)]
  · rw [resolveSplit, if_pos h1, pyInt,
      if_pos (mul_nonneg h0 (by positivity : (0 : ℚ) ≤ (dataLen : ℚ)))]
  · rw [resolveSplit, if_neg (lt_irrefl 1)]

/-! ### The train command's configuration snapshot -/

theorem create_modeldir_ok_shape (d : String) (ow : Bool) (fs : FS)
    (h : (create_modeldir (some d) ow fs).1 = Except.ok ()) :
    ∃ l : FS, (create_modeldir (some d) ow fs).2 = l ++ [(d, [])] ∧
      ∀ e ∈ l, (e.1 == d) = false := by
  by_cases hex : fs.pathExists d = true
  · cases ow with
    | false =>
      rw [create_modeldir, if_pos (by simp [hex])] at h
      cases h
    | true =>
      refine ⟨fs.rmtree d, ?_, ?_⟩
      · simp [create_modeldir, hex, pathExists_rmtree, FS.makedirs]
      · intro e he
        have := (List.mem_filter.mp he).2
        simpa using this
  · have hex' : fs.pathExists d = false := by
      cases hv : fs.pathExists d
      · rfl
      · exact absurd hv hex
    refine ⟨fs, ?_, ?_⟩
    · simp [create_modeldir, hex', FS.makedirs]
    · intro e he
      cases hv : (e.1 == d)
      · rfl
      · have htrue : fs.pathExists d = true := by
          simp only [FS.pathExists, List.any_eq_true]
          exact ⟨e, he, hv⟩
        rw [htrue] at hex'
        cases hex'

theorem lookupDir_writeFile_append (l : FS) (d name : String) (c : Config)
    (hl : ∀ e ∈ l, (e.1 == d) = false) :
    FS.lookupDir (FS.writeFile (l ++ [(d, [])]) d name c) d = some [(name, c)] := by
  unfold FS.writeFile FS.lookupDir
  rw [List.map_append, List.find?_append]
  have h1 : ((l.map fun e =>
      if e.1 == d then (e.1, e.2.filter (fun f => f.1 != name) ++ [(name, c)]) else e).find?
        (fun e => e.1 == d)) = none := by
    rw [List.find?_eq_none]
    intro e' he'
    rcases List.mem_map.mp he' with ⟨e, he, rfl⟩
    rw [hl e he]
    simpa using hl e he
  rw [h1]
  simp

/-- C2 amended: the `train` command writes the configuration snapshot to
`config.yaml` exactly once, at run start, and the snapshot is the configuration
as of run start — in particular its `mean`/`stddev` are the configured values
(by default `None`), not the statistics resolved later, since `save_config`
runs before `stats`. -/
theorem train_config_snapshot {α : Type} (gpm : List String → PropertyMap)
    (ga : String → α)
    (gs : List (Option String) → List Bool → List (Option α) → List ℚ × List ℚ)
    (properties : List String) (config : Config) (dataLen : ℕ) (fs : FS)
    (d : String) (st : TrainState α)
    (hd : config.modeldir = some d)
    (hok : train gpm ga gs properties config dataLen fs = Except.ok st) :
    st.writes = [(d, config)] ∧
    FS.lookupDir st.fs d = some [("config.yaml", config)] := by
  unfold train at hok
  rw [hd] at hok
  rcases hcm : create_modeldir (some d) config.overwrite fs with ⟨r1, fs1⟩
  rw [hcm] at hok
  cases r1 with
  | error e => exact Except.noConfusion hok
  | ok u =>
    cases u
    rcases create_modeldir_ok_shape d config.overwrite fs (by rw [hcm]) with ⟨l, hfs, hl⟩
    rw [hcm] at hfs
    have hfs1 : fs1 = l ++ [(d, [])] := hfs
    cases hok
    refine ⟨rfl, ?_⟩
    show FS.lookupDir (save_config config d fs1) d = _
    rw [save_config, hfs1]
    exact lookupDir_writeFile_append l d "config.yaml" config hl

/-- Concrete run for C2: one property with a target, statistics resolved to
mean 5 and stddev 2, default-like configuration with `mean = stddev = None`. -/
def c2pm : PropertyMap := [("energy", some "energy_U0")]

/-- See `c2pm`. -/
def c2run : Except CmdError (TrainState ℚ) :=
  train (fun _ => c2pm) (fun _ => 0) c6gs ["energy"] c6cfg 3 []

/-- The state `c2run` reaches. -/
def c2st : TrainState ℚ :=
  { fs := [("models", [("config.yaml", c6cfg)])]
    writes := [("models", c6cfg)]
    config := { c6cfg with mean := some [("energy", 5)], stddev := some [("energy", 2)] }
    mean := some [("energy", 5)]
    stddev := some [("energy", 2)]
    atomrefs := [("energy", 0)] }

/-- C2 counterexample: in the run `c2run` the snapshot written to `config.yaml`
carries `mean = None`, while the mean resolved by statistics computation is
`{"energy": 5}` — the snapshot does not include the resolved values. -/
theorem train_snapshot_omits_resolved_stats :
    c2run.toOption.map (fun st => st.writes.map (fun w => w.2.mean)) = some [none] ∧
    c2run.toOption.map (fun st => st.mean) = some (some [("energy", (5 : ℚ))]) ∧
    (none : Option StatDict) ≠ some [("energy", (5 : ℚ))] := by
  refine ⟨rfl, rfl, by simp⟩

theorem train_config_snapshot_witness :
    c2st.writes = [("models", c6cfg)] ∧
    FS.lookupDir c2st.fs "models" = some [("config.yaml", c6cfg)] :=
  train_config_snapshot (fun _ => c2pm) (fun _ => (0 : ℚ)) c6gs ["energy"] c6cfg 3 []
    "models" c2st rfl rfl

end RunSchnetpack
